import Mathlib

/-!
Shallow embedding of the Warframe Arbitrations bot (`bot.py`) data pipeline:
the schedule-feed parser, node resolver, tier classifier, arbitration
assembler, future-events scanner, resilient fetcher and hourly scheduler
delay, together with theorems settling the specification claims.

Strings are Lean `String`s, manipulated through executable helpers over
their character lists; Python `str.upper()` is modelled by `strUpper`
(ASCII uppercasing); Python `int()` on an already stripped field is
modelled by `pyInt?` (optional sign followed by decimal digits);
timestamps are `Int`.  Network effects are modelled by passing the fetch
results (`Option` values) as explicit arguments, and exceptions by
`Option`-returning total functions.
-/

/-- ASCII uppercasing of one character, as `str.upper()` acts on the
ASCII range. -/
def charUpper (c : Char) : Char :=
  if 97 ≤ c.toNat && c.toNat ≤ 122 then Char.ofNat (c.toNat - 32) else c

/-- Models Python `s.upper()` (over the ASCII range exercised here). -/
def strUpper (s : String) : String :=
  ⟨s.data.map charUpper⟩

/-- ASCII whitespace recognised by the stripping helpers: space, tab,
newline, carriage return. -/
def isWs (c : Char) : Bool :=
  c == Char.ofNat 32 || c == Char.ofNat 9 || c == Char.ofNat 10 ||
    c == Char.ofNat 13

/-- Strip leading and trailing whitespace from a character list. -/
def listTrim (cs : List Char) : List Char :=
  ((cs.dropWhile isWs).reverse.dropWhile isWs).reverse

/-- Models Python `s.strip()`. -/
def strTrim (s : String) : String :=
  ⟨listTrim s.data⟩

/-- `subPre n h` holds when the character list `n` occurs at the very start
of `h` (building block of Python's `in` substring test). -/
def subPre : List Char → List Char → Bool
  | [], _ => true
  | _ :: _, [] => false
  | c :: n, d :: h => c == d && subPre n h

/-- `subAnywhere n h` holds when `n` occurs as a contiguous run somewhere
in `h`. -/
def subAnywhere (n : List Char) : List Char → Bool
  | [] => n.isEmpty
  | d :: h => subPre n (d :: h) || subAnywhere n h

/-- `strContains hay needle` models Python's `needle in hay` on strings. -/
def strContains (hay needle : String) : Bool :=
  subAnywhere needle.data hay.data

/-- Split a character list at every separator character, keeping empty
segments (the semantics of splitting on newlines). -/
def splitChars (p : Char → Bool) : List Char → List (List Char)
  | [] => [[]]
  | c :: rest =>
    let r := splitChars p rest
    if p c then [] :: r
    else
      match r with
      | [] => [[c]]
      | h :: t => (c :: h) :: t

/-- Find the first occurrence of `sep` in a character list and split there:
`some (before, after)` with the separator removed, or `none` when `sep`
does not occur. -/
def splitFirstAux (sep : List Char) : List Char → Option (List Char × List Char)
  | [] => none
  | c :: rest =>
    if subPre sep (c :: rest) then some ([], (c :: rest).drop sep.length)
    else
      match splitFirstAux sep rest with
      | none => none
      | some (a, b) => some (c :: a, b)

/-- Models Python `s.split(sep, 1)` as a pair (first field, remainder);
when `sep` is absent the whole string is the first field, as in Python
where `split` then yields a single-element list. -/
def splitOnce (s sep : String) : String × String :=
  match splitFirstAux sep.data s.data with
  | none => (s, "")
  | some (a, b) => (⟨a⟩, ⟨b⟩)

/-- Models Python `s.replace(old, "")` for a single-character `old`:
remove every occurrence of that character. -/
def strRemoveChar (s : String) (c : Char) : String :=
  ⟨s.data.filter (fun d => d != c)⟩

/-- Decimal-digit test (ASCII `0`-`9`). -/
def isDigitC (c : Char) : Bool :=
  48 ≤ c.toNat && c.toNat ≤ 57

/-- Accumulator pass over decimal digits; fails on any non-digit. -/
def digitsAcc : List Char → Nat → Option Nat
  | [], acc => some acc
  | c :: cs, acc =>
    if isDigitC c then digitsAcc cs (acc * 10 + (c.toNat - 48)) else none

/-- Parse a nonempty all-digit character list as a natural number. -/
def digitsToNat (cs : List Char) : Option Nat :=
  if cs.isEmpty then none else digitsAcc cs 0

/-- Models Python `int(s)` on an already stripped string, over the fragment
exercised by the feed: an optional sign followed by one or more decimal
digits; anything else fails (and the caller skips the line). -/
def pyInt? (s : String) : Option Int :=
  match s.data with
  | [] => none
  | c :: rest =>
    if c == Char.ofNat 45 then (digitsToNat rest).map (fun n => -(n : Int))
    else if c == Char.ofNat 43 then (digitsToNat rest).map (fun n => (n : Int))
    else (digitsToNat (c :: rest)).map (fun n => (n : Int))

/-- Models `txt.strip().splitlines()`: strip the text, then split on newline
or carriage-return characters (every produced line is re-stripped or
blank-checked by the callers, so CRLF pairs behave as in Python). -/
def linesOf (txt : String) : List String :=
  (splitChars (fun c => c == Char.ofNat 10 || c == Char.ofNat 13)
      (listTrim txt.data)).map (fun cs => (⟨cs⟩ : String))

/-- `MAX_RETRIES` from `bot.py` line 49. -/
def MAX_RETRIES : Nat := 3

/-- `RETRY_DELAY` (seconds) from `bot.py` line 50. -/
def RETRY_DELAY : Nat := 5

/-- `current_hour_start = int(now // 3600) * 3600` (floor division), as
computed at `bot.py` lines 121, 147, 448 and 568. -/
def hourStart (now : Int) : Int :=
  now.fdiv 3600 * 3600

/-- `S_NODES` table from `calculate_tier` (`bot.py` lines 198-208). -/
def S_NODES : List String :=
  ["AKKAD", "HYDRON", "STÖFLER", "CERBERUS", "BEREHYNIA", "UR",
   "LOST PASSAGE", "ADRASTEA", "CARACOL"]

/-- `A_NODES` table from `calculate_tier` (`bot.py` lines 211-222). -/
def A_NODES : List String :=
  ["ZABALA", "HIERACON", "GABII", "APOLLO", "HOREND", "MOT", "YURSA",
   "PALUS", "CINXIA", "TESSERA"]

/-- `B_NODES` table from `calculate_tier` (`bot.py` lines 225-235). -/
def B_NODES : List String :=
  ["ODIN", "HELENE", "CASTA", "BODE", "MALVA", "LARES", "WAHIBA",
   "CAMERIA", "SINAI"]

/-- `C_NODES` table from `calculate_tier` (`bot.py` lines 238-245). -/
def C_NODES : List String :=
  ["TITAN", "OPHELIA", "CALYPSO", "CYTHEREAN", "HYENA", "OUTER TERMINUS"]

/-- `D_NODES` table from `calculate_tier` (`bot.py` lines 248-254). -/
def D_NODES : List String :=
  ["UNDERTOW", "DIONE", "DESDEMONA", "TORMENT", "CARACOL"]

/-- `calculate_tier(mission_type, node_name)` (`bot.py` lines 183-288):
uppercase both inputs, scan the five tables in order S, A, B, C, D with a
substring test per entry, then fall back on the mission type. -/
def calculate_tier (mission_type node_name : String) : String :=
  let node := strUpper node_name
  let mtype := strUpper mission_type
  if S_NODES.any (fun n => strContains node n) then "S"
  else if A_NODES.any (fun n => strContains node n) then "A"
  else if B_NODES.any (fun n => strContains node n) then "B"
  else if C_NODES.any (fun n => strContains node n) then "C"
  else if D_NODES.any (fun n => strContains node n) then "D"
  else if strContains mtype "INTERCEPTION" || strContains mtype "DEFENSE" then "B"
  else if strContains mtype "SURVIVAL" || strContains mtype "DISRUPTION" then "C"
  else if strContains mtype "EXCAVATION" then "C"
  else "F"

/-- The five curated tables with their tiers in the spec's fixed priority
order S > A > B > C > D. -/
def tierTables : List (List String × String) :=
  [(S_NODES, "S"), (A_NODES, "A"), (B_NODES, "B"), (C_NODES, "C"),
   (D_NODES, "D")]

/-- Reference algorithm written from the spec's words (spec sections 4.4 and
8): uppercase both inputs, return the tier of the first table in priority
order with a substring match against the map label, else B for mission types
containing INTERCEPTION or DEFENSE, C for SURVIVAL, DISRUPTION or
EXCAVATION, F otherwise. -/
def classifySpec (mission_type map_label : String) : String :=
  let node := strUpper map_label
  let mtype := strUpper mission_type
  match tierTables.find? (fun t => t.1.any (fun n => strContains node n)) with
  | some t => t.2
  | none =>
    if strContains mtype "INTERCEPTION" || strContains mtype "DEFENSE" then "B"
    else if strContains mtype "SURVIVAL" || strContains mtype "DISRUPTION" ||
            strContains mtype "EXCAVATION" then "C"
    else "F"

/-- The six letter grades the classifier can produce. -/
def tierLetters : List String := ["S", "A", "B", "C", "D", "F"]

/-- One pass of the line-parsing logic shared by the feed scanners: strip
the line, skip it when blank or comma-free, split at the first comma,
parse the timestamp, and return `(ts, node_id)` with both fields
stripped (`bot.py` lines 124-136, 450-461, 571-582). -/
def parseLine (l : String) : Option (Int × String) :=
  let line := strTrim l
  if line.data.isEmpty then none
  else if !(strContains line ",") then none
  else
    let parts := splitOnce line ","
    match pyInt? (strTrim parts.1) with
    | none => none
    | some ts => some (ts, strTrim parts.2)

/-- The well-formed entries of a feed text, in scan order. -/
def parsedEntries (txt : String) : List (Int × String) :=
  (linesOf txt).filterMap parseLine

/-- The line loop of `parse_node_id_from_txt` (`bot.py` lines 124-136):
return the node id of the first well-formed line whose timestamp equals
`hs`, skipping blank, comma-free and non-integer-timestamp lines. -/
def parseNodeGo (hs : Int) : List String → Option String
  | [] => none
  | l :: ls =>
    let line := strTrim l
    if line.data.isEmpty then parseNodeGo hs ls
    else if !(strContains line ",") then parseNodeGo hs ls
    else
      let parts := splitOnce line ","
      match pyInt? (strTrim parts.1) with
      | none => parseNodeGo hs ls
      | some ts =>
        let node_id := strTrim parts.2
        if ts == hs then some node_id else parseNodeGo hs ls

/-- `parse_node_id_from_txt(txt_content)` (`bot.py` lines 116-139), with the
wall clock `now` passed explicitly instead of read from `time.time()`. -/
def parse_node_id_from_txt (txt : String) (now : Int) : Option String :=
  parseNodeGo (hourStart now) (linesOf txt)

/-- Is `c` a tier letter for the hint pattern `[A-Fa-f]` (the regex
character class under `re.IGNORECASE`)? -/
def isTierLetter (c : Char) : Bool :=
  (65 ≤ c.toNat && c.toNat ≤ 70) || (97 ≤ c.toNat && c.toNat ≤ 102)

/-- Case-insensitive single-character comparison against an ASCII
character code. -/
def charCI (c : Char) (code : Nat) : Bool :=
  (charUpper c).toNat == code

/-- Match the regex tail `\s*tier\)` (case-insensitively) at the head of a
character list. -/
def matchTierTail (cs : List Char) : Bool :=
  match cs.dropWhile isWs with
  | t :: i :: e :: r :: p :: _ =>
    charCI t 84 && charCI i 73 && charCI e 69 && charCI r 82 && p == Char.ofNat 41
  | _ => false

/-- Try to match `\(([A-F])\s*tier\)` (under `re.IGNORECASE`) at the head
of a character list, returning the uppercased captured letter. -/
def hintAt : List Char → Option Char
  | p :: c :: rest =>
    if p == Char.ofNat 40 && isTierLetter c && matchTierTail rest then
      some (charUpper c)
    else none
  | _ => none

/-- Leftmost search for the hint pattern, as `re.search` scans a line. -/
def findHint : List Char → Option Char
  | [] => none
  | c :: rest =>
    match hintAt (c :: rest) with
    | some t => some t
    | none => findHint rest

/-- The line loop of `parse_tier_from_html` (`bot.py` lines 148-159): on the
line whose timestamp equals `hs`, extract the embedded `(<letter> tier)`
hint when present; keep scanning otherwise. -/
def parseTierGo (hs : Int) : List String → String
  | [] => "Inconnu"
  | l :: ls =>
    if (strTrim l).data.isEmpty then parseTierGo hs ls
    else
      let parts := splitOnce l ","
      match pyInt? (strTrim parts.1) with
      | none => parseTierGo hs ls
      | some ts =>
        if ts == hs then
          match findHint l.data with
          | some c => String.singleton c
          | none => parseTierGo hs ls
        else parseTierGo hs ls

/-- `parse_tier_from_html(txt_content)` (`bot.py` lines 142-160), with the
wall clock `now` passed explicitly. -/
def parse_tier_from_html (txt : String) (now : Int) : String :=
  parseTierGo (hourStart now) (linesOf txt)

/-- One metadata entry of the worldstate source: the `value`, `type` and
`enemy` keys, each possibly absent (`dict.get` with a default in the
source). -/
structure NodeData where
  value : Option String
  type : Option String
  enemy : Option String
deriving DecidableEq, Repr

/-- The worldstate metadata source: a mapping from node identifier to
metadata entry (`solNodes` JSON object). -/
abbrev Worldstate := List (String × NodeData)

/-- Python truthiness of the metadata entry dict: an entry with no keys is
falsy and treated by `extract_node_info` as not found. -/
def NodeData.isTruthy (nd : NodeData) : Bool :=
  nd.value.isSome || nd.type.isSome || nd.enemy.isSome

/-- Resolved node metadata (`bot.py` lines 174-179). -/
structure NodeInfo where
  planet : String
  node_name : String
  mission_type : String
  faction : String
deriving DecidableEq, Repr

/-- `extract_node_info(worldstate, node_id)` (`bot.py` lines 163-181):
look the node up, split the combined `"Name (Planet)"` label at the first
`" ("`, take the second piece up to the next `" ("` and drop every `")"`
from it; default the planet, mission type and faction to `"Inconnu"`. -/
def extract_node_info (worldstate : Worldstate) (node_id : String) : Option NodeInfo :=
  match worldstate.lookup node_id with
  | none => none
  | some node =>
    if node.isTruthy then
      let full_name := node.value.getD node_id
      if strContains full_name " (" then
        let node_name := (splitOnce full_name " (").1
        let second := (splitOnce (splitOnce full_name " (").2 " (").1
        let planet := strRemoveChar second (Char.ofNat 41)
        some ⟨planet, node_name, node.type.getD "Inconnu", node.enemy.getD "Inconnu"⟩
      else
        some ⟨"Inconnu", full_name, node.type.getD "Inconnu", node.enemy.getD "Inconnu"⟩
    else none

/-- The assembled current-arbitration record (`bot.py` lines 305-310): the
`carte`, `faction`, `type` and `tier` fields of the result dict. -/
structure ArbResult where
  carte : String
  faction : String
  type : String
  tier : String
deriving DecidableEq, Repr

/-- The all-fallback record the assembler starts from (`bot.py` lines
305-310). -/
def unknownRecord : ArbResult :=
  ⟨"Inconnue", "Inconnue", "Inconnu", "Inconnu"⟩

/-- `get_current_arbitration()` (`bot.py` lines 292-342), with the two fetch
results passed explicitly (`none` models a fetch that failed after
retries) and the wall clock `now` explicit.  Every failure branch leaves
the corresponding fields at their fallback values; an empty node id is
falsy in Python (`if node_id:`) and treated as not found; the tier is
computed only when the mission type resolved to something other than
`"Inconnu"`. -/
def get_current_arbitration (txt : Option String) (worldstate : Option Worldstate)
    (now : Int) : ArbResult :=
  match txt with
  | none => unknownRecord
  | some t =>
    match parse_node_id_from_txt t now with
    | none => unknownRecord
    | some node_id =>
      if node_id.data.isEmpty then unknownRecord
      else
      match worldstate with
      | none => unknownRecord
      | some ws =>
        match extract_node_info ws node_id with
        | none => unknownRecord
        | some ni =>
          let r : ArbResult :=
            { carte := ni.node_name ++ ", " ++ ni.planet
              faction := ni.faction
              type := ni.mission_type
              tier := "Inconnu" }
          if r.type != "Inconnu" then { r with tier := calculate_tier r.type r.carte }
          else r

/-- Trace of one run of a retrying fetcher: the returned value, the number
of attempts made, and the list of sleeps (in seconds) performed between
consecutive attempts. -/
structure FetchTrace (α : Type) where
  result : Option α
  attemptsMade : Nat
  waits : List Nat
deriving Repr

/-- The retry loop shared by `fetch_text` and `fetch_json` (`bot.py` lines
79-91 and 99-111), run over the list of remaining attempt numbers:
`att k` is the outcome of attempt `k` (`none` models any exception —
transport error, non-2xx status or timeout).  A sleep of `RETRY_DELAY`
happens only when a failed attempt is not the last one. -/
def fetchRetry {α : Type} (att : Nat → Option α) : List Nat → FetchTrace α
  | [] => ⟨none, 0, []⟩
  | a :: rest =>
    match att a with
    | some v => ⟨some v, 1, []⟩
    | none =>
      if rest.isEmpty then ⟨none, 1, []⟩
      else
        let r := fetchRetry att rest
        ⟨r.result, r.attemptsMade + 1, RETRY_DELAY :: r.waits⟩

/-- `fetch_text(session, url)` (`bot.py` lines 74-91): attempts numbered
`1..MAX_RETRIES`. -/
def fetch_text {α : Type} (att : Nat → Option α) : FetchTrace α :=
  fetchRetry att (List.range' 1 MAX_RETRIES)

/-- `fetch_json(session, url)` (`bot.py` lines 94-111): identical retry
policy (only the per-attempt timeout constant differs, which is invisible
to the retry logic). -/
def fetch_json {α : Type} (att : Nat → Option α) : FetchTrace α :=
  fetchRetry att (List.range' 1 MAX_RETRIES)

/-- The future-entry collection loop shared by `_notify_now` (`bot.py`
lines 450-461, strict comparison `ts > current_hour_start`) and `nexts`
(`bot.py` lines 571-582, inclusive comparison `ts >= current_hour_start`). -/
def collectFuture (strict : Bool) (hs : Int) : List String → List (Int × String)
  | [] => []
  | l :: ls =>
    let line := strTrim l
    if line.data.isEmpty then collectFuture strict hs ls
    else if !(strContains line ",") then collectFuture strict hs ls
    else
      let parts := splitOnce line ","
      match pyInt? (strTrim parts.1) with
      | none => collectFuture strict hs ls
      | some ts =>
        let node_id := strTrim parts.2
        if (if strict then hs < ts else hs ≤ ts) then
          (ts, node_id) :: collectFuture strict hs ls
        else collectFuture strict hs ls

/-- Insert an entry into a timestamp-sorted list, before any entry with a
strictly larger timestamp and after earlier equal timestamps, preserving
stability. -/
def insertByTs (e : Int × String) : List (Int × String) → List (Int × String)
  | [] => [e]
  | f :: fs => if e.1 ≤ f.1 then e :: f :: fs else f :: insertByTs e fs

/-- `future_nodes.sort(key=lambda x: x[0])` (`bot.py` lines 463, 584):
stable sort ascending by timestamp, modelled by stable insertion sort. -/
def sortByTs : List (Int × String) → List (Int × String)
  | [] => []
  | e :: es => insertByTs e (sortByTs es)

/-- One collected future S-tier occurrence (`bot.py` lines 474-479,
603-609; the `dt` field of `nexts` is derived from `ts` and not
modelled). -/
structure FutureArb where
  ts : Int
  carte : String
  faction : String
  type : String
deriving DecidableEq, Repr

/-- Build the result dict appended for a qualifying future entry. -/
def mkFutureArb (ts : Int) (ni : NodeInfo) : FutureArb :=
  ⟨ts, ni.node_name ++ ", " ++ ni.planet, ni.faction, ni.mission_type⟩

/-- The S-tier collection loop shared by `_notify_now` (`bot.py` lines
465-479) and `nexts` (`bot.py` lines 593-609): walk the sorted future
entries, break as soon as 3 results are collected, skip unresolvable
nodes, and keep those whose bare node name classifies as tier S. -/
def scanS (ws : Worldstate) : List (Int × String) → List FutureArb → List FutureArb
  | [], acc => acc
  | (ts, nid) :: rest, acc =>
    if 3 ≤ acc.length then acc
    else
      match extract_node_info ws nid with
      | none => scanS ws rest acc
      | some ni =>
        if calculate_tier ni.mission_type ni.node_name == "S" then
          scanS ws rest (acc ++ [mkFutureArb ts ni])
        else scanS ws rest acc

/-- The whole future-events scanner (`bot.py` lines 448-479 with
`strict = true`, lines 567-609 with `strict = false`), given the already
fetched feed text and worldstate. -/
def futureScan (strict : Bool) (txt : String) (ws : Worldstate) (now : Int) :
    List FutureArb :=
  scanS ws (sortByTs (collectFuture strict (hourStart now) (linesOf txt))) []

/-- The per-entry resolution and classification of the scan loop as a
single optional step: `some` exactly when the entry resolves and its bare
node name classifies as tier S. -/
def sCandidate (ws : Worldstate) (e : Int × String) : Option FutureArb :=
  match extract_node_info ws e.2 with
  | none => none
  | some ni =>
    if calculate_tier ni.mission_type ni.node_name == "S" then
      some (mkFutureArb e.1 ni)
    else none

/-- All qualifying S-tier candidates of an entry list, in order. -/
def sCandidates (ws : Worldstate) (entries : List (Int × String)) : List FutureArb :=
  entries.filterMap (sCandidate ws)

/-- The delay computation of `before_hourly_loop` (`bot.py` lines 402-419):
`elapsed = now % 3600`, `delay = 3600 - elapsed` (fractional seconds of
`time.time()` are immaterial to the claims and elided: `now` is in whole
seconds). -/
def before_hourly_loop_delay (now : Int) : Int :=
  let elapsed := now % 3600
  3600 - elapsed

/-! ## Concrete scenarios used by the claim theorems -/

/-- Feed text whose single entry is the hour bucket 7200. -/
def akkadFeed : String := "7200,NodeX"

/-- Metadata resolving `NodeX` to Akkad (Eris), Defense, Infested. -/
def akkadWS : Worldstate :=
  [("NodeX", ⟨some "Akkad (Eris)", some "Defense", some "Infested"⟩)]

/-- Feed whose current line embeds the free-form hint `(D tier)`. -/
def hintFeed : String := "7200,NodeX (D tier)"

/-- Metadata keyed by the full node field of `hintFeed`, resolving to a map
the curated tables classify as S. -/
def hintWS : Worldstate :=
  [("NodeX (D tier)", ⟨some "Akkad (Eris)", some "Defense", some "Infested"⟩)]

/-- Metadata resolving `NodeT` to Titan (Saturn), Survival, Grineer. -/
def titanWS : Worldstate :=
  [("NodeT", ⟨some "Titan (Saturn)", some "Survival", some "Grineer"⟩)]

/-- Feed with five future entries (relative to hour bucket 0). -/
def exFeed : String :=
  "3600,N1\n7200,N2\n10800,N3\n14400,N4\n18000,N5"

/-- Metadata under which exactly the entries `N2` (Hydron) and `N4`
(Akkad) of `exFeed` classify as tier S; the Titan entries classify C. -/
def exWS : Worldstate :=
  [("N1", ⟨some "Titan (Saturn)", some "Survival", some "Grineer"⟩),
   ("N2", ⟨some "Hydron (Sedna)", some "Defense", some "Grineer"⟩),
   ("N3", ⟨some "Titan (Saturn)", some "Survival", some "Grineer"⟩),
   ("N4", ⟨some "Akkad (Eris)", some "Defense", some "Infested"⟩),
   ("N5", ⟨some "Titan (Saturn)", some "Survival", some "Grineer"⟩)]

/-! ## Claim theorems -/

/-- The code's two-step mission-type fallback (SURVIVAL or DISRUPTION,
then EXCAVATION) agrees with the spec's merged three-way C case, whatever
the five condition booleans are. -/
theorem fallbackEq (i d s di e : Bool) :
    (if i || d then "B" else if s || di then "C" else if e then "C" else "F")
      = (if i || d then "B" else if s || di || e then "C" else "F") := by
  cases i <;> cases d <;> cases s <;> cases di <;> cases e <;> rfl

/-- The mission-type fallback only produces letter grades. -/
theorem fallbackMem (i d s di e : Bool) :
    (if i || d then "B" else if s || di then "C" else if e then "C" else "F")
      ∈ tierLetters := by
  cases i <;> cases d <;> cases s <;> cases di <;> cases e <;> decide

/-- C1: `calculate_tier` coincides with the spec's reference algorithm
(`classifySpec`: five curated tables checked in fixed priority
S > A > B > C > D by substring match on the uppercased map label, then the
mission-type fallback B / C / F) on every pair of strings, and it always
returns one of the six letter grades, hence never `Unknown`/`Inconnu`;
being a Lean function of its two arguments it is total and
deterministic. -/
theorem calculate_tier_matches_spec (mt ml : String) :
    calculate_tier mt ml = classifySpec mt ml ∧
    calculate_tier mt ml ∈ tierLetters := by
  simp only [calculate_tier, classifySpec, tierTables]
  cases hS : S_NODES.any (fun n => strContains (strUpper ml) n) <;>
  cases hA : A_NODES.any (fun n => strContains (strUpper ml) n) <;>
  cases hB : B_NODES.any (fun n => strContains (strUpper ml) n) <;>
  cases hC : C_NODES.any (fun n => strContains (strUpper ml) n) <;>
  cases hD : D_NODES.any (fun n => strContains (strUpper ml) n) <;>
    simp only [List.find?_cons, List.find?_nil, hS, hA, hB, hC, hD,
      Bool.false_eq_true, if_false, if_true, ite_true, ite_false] <;>
    first
      | exact ⟨trivial, by decide⟩
      | exact ⟨fallbackEq _ _ _ _ _, fallbackMem _ _ _ _ _⟩

/-- C2: assembling from a feed whose entry for the current hour bucket is
`NodeX` and metadata sending `NodeX` to Akkad (Eris) / Defense / Infested
yields the record (map "Akkad, Eris", faction Infested, type Defense,
tier S). -/
theorem assembler_end_to_end (now : Int) (h : hourStart now = 7200) :
    get_current_arbitration (some akkadFeed) (some akkadWS) now =
      ⟨"Akkad, Eris", "Infested", "Defense", "S"⟩ := by
  unfold get_current_arbitration parse_node_id_from_txt
  rw [h]
  decide

/-- Witness for C2 at the concrete clock 7200. -/
theorem assembler_end_to_end_witness :
    get_current_arbitration (some akkadFeed) (some akkadWS) 7200 =
      ⟨"Akkad, Eris", "Infested", "Defense", "S"⟩ :=
  assembler_end_to_end 7200 (by decide)

/-- C4: when the feed fetch failed after retries (`none`), the assembler
returns the fully-formed all-fallback record, whatever the metadata fetch
and the clock did; the assembler is a total function, so no exception
escapes it. -/
theorem assembler_feed_failure (ws : Option Worldstate) (now : Int) :
    get_current_arbitration none ws now = unknownRecord := rfl

/-- C9: the computed delay before the first hourly tick is 3600 minus
(now mod 3600); in particular at any exact half hour HH:30:00 the delay is
1800 seconds. -/
theorem hourly_delay_alignment :
    (∀ now : Int, before_hourly_loop_delay now = 3600 - now % 3600) ∧
    (∀ now k : Int, now = 3600 * k + 1800 → before_hourly_loop_delay now = 1800) := by
  refine ⟨fun now => rfl, fun now k h => ?_⟩
  subst h
  show 3600 - (3600 * k + 1800) % 3600 = 1800
  omega

/-- Witness for C9 at 11:30:00 (41400 seconds into the day). -/
theorem hourly_delay_alignment_witness :
    before_hourly_loop_delay 41400 = 1800 :=
  hourly_delay_alignment.2 41400 11 (by decide)

/-- C10: the assembler classifies the full `"node_name, planet"` label
while the scanners classify the bare node name, and the two disagree on
Titan (Saturn) Survival: the assembler gets S (the S-table entry `UR` is a
substring of `TITAN, SATURN`) while the scanner's classification of
`Titan` is C, so the scanner does not collect the node. -/
theorem classification_paths_diverge :
    extract_node_info titanWS "NodeT" =
      some ⟨"Saturn", "Titan", "Survival", "Grineer"⟩ ∧
    get_current_arbitration (some "7200,NodeT") (some titanWS) 7200 =
      ⟨"Titan, Saturn", "Grineer", "Survival", "S"⟩ ∧
    calculate_tier "Survival" "Titan, Saturn" = "S" ∧
    calculate_tier "Survival" "Titan" = "C" ∧
    futureScan true "7200,NodeT" titanWS 0 = [] := by decide

/-- The final classification step of the assembler preserves the
"tier comes from the tables or stays unknown" invariant for any record
whose tier starts at the sentinel. -/
theorem tier_step (r : ArbResult) (h : r.tier = "Inconnu") :
    (if r.type != "Inconnu" then { r with tier := calculate_tier r.type r.carte } else r).tier
      = "Inconnu" ∨
    (if r.type != "Inconnu" then { r with tier := calculate_tier r.type r.carte } else r).tier
      = calculate_tier
          (if r.type != "Inconnu" then { r with tier := calculate_tier r.type r.carte } else r).type
          (if r.type != "Inconnu" then { r with tier := calculate_tier r.type r.carte } else r).carte := by
  cases hty : r.type != "Inconnu" <;> simp [hty]
  exact Or.inl h

/-- C8 (amended): the embedded tier hint is never an override: the tier of
every assembled record is either the `Inconnu` sentinel or exactly the
curated-table classification of the record's own mission type and map
label, so no pipeline output ever reports the hint letter instead of the
table classification (`parse_tier_from_html`, the only code that reads the
hint, has no caller in the pipeline). -/
theorem tier_never_overridden_by_hint (txt : Option String)
    (ws : Option Worldstate) (now : Int) :
    (get_current_arbitration txt ws now).tier = "Inconnu" ∨
    (get_current_arbitration txt ws now).tier =
      calculate_tier (get_current_arbitration txt ws now).type
        (get_current_arbitration txt ws now).carte := by
  unfold get_current_arbitration
  repeat' split
  all_goals try exact Or.inl rfl
  all_goals exact tier_step _ rfl

/-- C8 (counterexample to the claim as stated): a feed whose current line
embeds the hint `(D tier)` — extracted as `D` by `parse_tier_from_html` —
still produces tier S, the curated-table classification, in the assembled
record; the hint is not used. -/
theorem tier_hint_not_authoritative :
    parse_tier_from_html hintFeed 7200 = "D" ∧
    calculate_tier "Defense" "Akkad, Eris" = "S" ∧
    (get_current_arbitration (some hintFeed) (some hintWS) 7200).tier = "S" ∧
    (get_current_arbitration (some hintFeed) (some hintWS) 7200).tier ≠ "D" := by
  decide

/-- Unfolding lemma: one loop iteration of the current-node search is one
`parseLine` step followed by the timestamp comparison. -/
theorem parseNodeGo_cons (hs : Int) (l : String) (ls : List String) :
    parseNodeGo hs (l :: ls) =
      match parseLine l with
      | none => parseNodeGo hs ls
      | some e => if e.1 == hs then some e.2 else parseNodeGo hs ls := by
  simp only [parseNodeGo, parseLine]
  cases h1 : (strTrim l).data.isEmpty <;>
  cases h2 : strContains (strTrim l) "," <;>
  cases hp : pyInt? (strTrim (splitOnce (strTrim l) ",").1) <;>
    simp [h1, h2, hp]

/-- The current-node loop returns the second component of the first
well-formed entry whose timestamp matches. -/
theorem parseNodeGo_eq_find (hs : Int) (ls : List String) :
    parseNodeGo hs ls =
      ((ls.filterMap parseLine).find? (fun e => e.1 == hs)).map Prod.snd := by
  induction ls with
  | nil => rfl
  | cons l ls ih =>
    rw [parseNodeGo_cons]
    cases hp : parseLine l with
    | none => simp [List.filterMap_cons, hp, ih]
    | some e =>
      simp only [List.filterMap_cons, hp, List.find?_cons]
      cases ht : (e.1 == hs) <;> simp [ht, ih]

/-- Dropping the malformed lines does not change the current-node loop's
result. -/
theorem parseNodeGo_filter (hs : Int) (ls : List String) :
    parseNodeGo hs ls = parseNodeGo hs (ls.filter (fun l => (parseLine l).isSome)) := by
  induction ls with
  | nil => rfl
  | cons l ls ih =>
    rw [parseNodeGo_cons]
    cases hp : parseLine l with
    | none => simp [List.filter_cons, hp, ih]
    | some e =>
      simp only [List.filter_cons, hp, Option.isSome_some, if_true, ite_true]
      rw [parseNodeGo_cons, hp]
      exact if_congr Iff.rfl rfl ih

/-- C3: for every feed text and clock, the current lookup returns the node
identifier of the first well-formed line (in scan order) whose timestamp
equals `floor(now/3600)*3600`, and `none` when no such line exists. -/
theorem parse_current_first_match (txt : String) (now : Int) :
    parse_node_id_from_txt txt now =
      ((parsedEntries txt).find? (fun e => e.1 == hourStart now)).map Prod.snd := by
  unfold parse_node_id_from_txt parsedEntries
  exact parseNodeGo_eq_find (hourStart now) (linesOf txt)

/-- C6: the parser's result over the whole feed equals its result over only
the well-formed lines — blank lines, comma-free lines and lines with a
non-integer timestamp are skipped without aborting the scan; the parser is
a total function, so no malformed input makes it raise. -/
theorem parser_skips_malformed (txt : String) (now : Int) :
    parse_node_id_from_txt txt now =
      parseNodeGo (hourStart now)
        ((linesOf txt).filter (fun l => (parseLine l).isSome)) := by
  unfold parse_node_id_from_txt
  exact parseNodeGo_filter (hourStart now) (linesOf txt)

/-- C7: both fetchers make at most `MAX_RETRIES` (3) attempts, every wait
between consecutive attempts is exactly `RETRY_DELAY` (5) seconds with no
backoff growth, the result is the value of the first successful attempt
among attempts 1..3 (`findSome?`), three failures yield the explicit
failure signal `none` after exactly 3 attempts and 2 waits, a first-attempt
success returns immediately, and `fetch_json` implements the identical
policy; both are total functions, so no exception propagates. -/
theorem fetch_retry_policy {α : Type} (att : Nat → Option α) :
    (fetch_text att).attemptsMade ≤ MAX_RETRIES ∧
    (∀ w ∈ (fetch_text att).waits, w = RETRY_DELAY) ∧
    (fetch_text att).result = [1, 2, 3].findSome? att ∧
    (att 1 = none → att 2 = none → att 3 = none →
      fetch_text att = ⟨none, 3, [5, 5]⟩) ∧
    (∀ v, att 1 = some v → fetch_text att = ⟨some v, 1, []⟩) ∧
    fetch_json att = fetch_text att := by
  have hr : List.range' 1 MAX_RETRIES = [1, 2, 3] := rfl
  unfold fetch_text fetch_json
  rw [hr]
  cases h1 : att 1 <;> cases h2 : att 2 <;> cases h3 : att 3 <;>
    simp_all [fetchRetry, RETRY_DELAY, MAX_RETRIES, List.findSome?]

/-- Witness for C7: a fetcher whose three attempts all fail returns the
failure signal after exactly 3 attempts and two 5-second waits. -/
theorem fetch_retry_policy_witness :
    fetch_text (fun _ => (none : Option Nat)) = ⟨none, 3, [5, 5]⟩ :=
  (fetch_retry_policy (fun _ => (none : Option Nat))).2.2.2.1 rfl rfl rfl

/-- Unfolding lemma: one iteration of the S-tier collection loop is the
cap check followed by one `sCandidate` resolution step. -/
theorem scanS_cons (ws : Worldstate) (ts : Int) (nid : String)
    (rest : List (Int × String)) (acc : List FutureArb) :
    scanS ws ((ts, nid) :: rest) acc =
      if 3 ≤ acc.length then acc
      else
        match sCandidate ws (ts, nid) with
        | none => scanS ws rest acc
        | some r => scanS ws rest (acc ++ [r]) := by
  cases hx : extract_node_info ws nid with
  | none => simp [scanS, sCandidate, hx]
  | some ni =>
    cases ht : calculate_tier ni.mission_type ni.node_name == "S" <;>
      simp [scanS, sCandidate, hx, ht]

/-- Characterization of the capped scan: starting from an accumulator
below the cap, it appends exactly the first `3 - acc.length` qualifying
candidates of the remaining entries. -/
theorem scanS_eq_take (ws : Worldstate) (entries : List (Int × String)) :
    ∀ acc : List FutureArb, acc.length ≤ 3 →
      scanS ws entries acc = acc ++ (sCandidates ws entries).take (3 - acc.length) := by
  induction entries with
  | nil => intro acc h; simp [scanS, sCandidates]
  | cons e rest ih =>
    intro acc h
    obtain ⟨ts, nid⟩ := e
    rw [scanS_cons]
    by_cases hfull : 3 ≤ acc.length
    · have hlen : acc.length = 3 := le_antisymm h hfull
      simp [hfull, hlen]
    · push_neg at hfull
      simp only [not_le.mpr hfull, if_false, ite_false]
      cases hc : sCandidate ws (ts, nid) with
      | none =>
        rw [ih acc h]
        simp [sCandidates, List.filterMap_cons, hc]
      | some r =>
        have hlen2 : (acc ++ [r]).length ≤ 3 := by
          simp [List.length_append]; omega
        change scanS ws rest (acc ++ [r]) = _
        rw [ih (acc ++ [r]) hlen2]
        simp only [sCandidates, List.filterMap_cons, hc]
        have h3 : 3 - acc.length = (3 - (acc ++ [r]).length) + 1 := by
          simp [List.length_append]; omega
        rw [h3, List.take_succ_cons, List.append_assoc]
        rfl

/-- A successful candidate step comes from a resolved node whose bare name
classifies as S, and produces exactly the corresponding record. -/
theorem sCandidate_eq_some {ws : Worldstate} {e : Int × String} {r : FutureArb}
    (h : sCandidate ws e = some r) :
    ∃ ni, extract_node_info ws e.2 = some ni ∧
      calculate_tier ni.mission_type ni.node_name = "S" ∧ r = mkFutureArb e.1 ni := by
  unfold sCandidate at h
  split at h
  · cases h
  · rename_i ni hx
    split at h
    · rename_i ht
      injection h with h2
      exact ⟨ni, hx, eq_of_beq ht, h2.symm⟩
    · cases h

/-- A collected candidate carries the timestamp of its feed entry. -/
theorem sCandidate_ts {ws : Worldstate} {e : Int × String} {r : FutureArb}
    (h : sCandidate ws e = some r) : r.ts = e.1 := by
  obtain ⟨ni, _, _, rfl⟩ := sCandidate_eq_some h
  rfl

/-- Membership in an insertion step. -/
theorem mem_insertByTs {x e : Int × String} {l : List (Int × String)} :
    x ∈ insertByTs e l ↔ x = e ∨ x ∈ l := by
  induction l with
  | nil => simp [insertByTs]
  | cons f fs ih =>
    simp only [insertByTs]
    by_cases h : e.1 ≤ f.1 <;> simp [h, ih] <;> tauto

/-- Inserting into a timestamp-sorted list keeps it sorted. -/
theorem pairwise_insertByTs (e : Int × String) (l : List (Int × String))
    (hl : l.Pairwise (fun a b => a.1 ≤ b.1)) :
    (insertByTs e l).Pairwise (fun a b => a.1 ≤ b.1) := by
  induction l with
  | nil => simp [insertByTs]
  | cons f fs ih =>
    cases hl with
    | cons hf hfs =>
      simp only [insertByTs]
      by_cases h : e.1 ≤ f.1
      · simp only [h, if_true, ite_true]
        refine List.Pairwise.cons ?_ (List.Pairwise.cons hf hfs)
        intro b hb
        rcases List.mem_cons.mp hb with rfl | hb
        · exact h
        · exact le_trans h (hf b hb)
      · simp only [h, if_false, ite_false]
        refine List.Pairwise.cons ?_ (ih hfs)
        intro b hb
        rcases mem_insertByTs.mp hb with rfl | hb
        · exact le_of_lt (lt_of_not_le h)
        · exact hf b hb

/-- The scanner's sort produces a timestamp-sorted list. -/
theorem pairwise_sortByTs (l : List (Int × String)) :
    (sortByTs l).Pairwise (fun a b => a.1 ≤ b.1) := by
  induction l with
  | nil => simp [sortByTs]
  | cons e es ih => exact pairwise_insertByTs e _ ih

/-- Candidate collection preserves the timestamp ordering of the entry
list it walks. -/
theorem pairwise_sCandidates (ws : Worldstate) (l : List (Int × String))
    (hl : l.Pairwise (fun a b => a.1 ≤ b.1)) :
    (sCandidates ws l).Pairwise (fun a b => a.ts ≤ b.ts) := by
  induction l with
  | nil => simp [sCandidates]
  | cons e rest ih =>
    cases hl with
    | cons he hrest =>
      simp only [sCandidates, List.filterMap_cons]
      cases hc : sCandidate ws e with
      | none => exact ih hrest
      | some r =>
        refine List.Pairwise.cons ?_ (ih hrest)
        intro b hb
        obtain ⟨e2, he2, hc2⟩ := List.mem_filterMap.mp hb
        rw [sCandidate_ts hc, sCandidate_ts hc2]
        exact he e2 he2

/-- C5: the future-events scanner (in both its strict `_notify_now` form
and its inclusive `nexts` form) walks the future entries sorted ascending
by timestamp and returns exactly the first three qualifying S-tier
candidates in that order: its output is a `take 3`, so it holds at most 3
records, is sorted ascending by timestamp, consists only of entries whose
resolved bare node name classifies as S, is empty (not an error) when no
future entry qualifies, and the loop stops resolving entries as soon as 3
results are collected; on the concrete five-entry feed `exFeed` with
exactly two S entries it returns exactly those two, ascending. -/
theorem future_scanner_spec (strict : Bool) (txt : String) (ws : Worldstate)
    (now : Int) :
    futureScan strict txt ws now =
      (sCandidates ws (sortByTs (collectFuture strict (hourStart now) (linesOf txt)))).take 3 ∧
    (futureScan strict txt ws now).length ≤ 3 ∧
    (futureScan strict txt ws now).Pairwise (fun a b => a.ts ≤ b.ts) ∧
    (∀ r ∈ futureScan strict txt ws now, ∃ nid ni,
        extract_node_info ws nid = some ni ∧
        calculate_tier ni.mission_type ni.node_name = "S" ∧
        r = mkFutureArb r.ts ni) ∧
    (sCandidates ws (sortByTs (collectFuture strict (hourStart now) (linesOf txt))) = [] →
        futureScan strict txt ws now = []) ∧
    (∀ ts nid rest acc, 3 ≤ acc.length → scanS ws ((ts, nid) :: rest) acc = acc) ∧
    futureScan true exFeed exWS 0 =
      [⟨7200, "Hydron, Sedna", "Grineer", "Defense"⟩,
       ⟨14400, "Akkad, Eris", "Infested", "Defense"⟩] := by
  have hchar : futureScan strict txt ws now =
      (sCandidates ws (sortByTs (collectFuture strict (hourStart now) (linesOf txt)))).take 3 := by
    unfold futureScan
    simpa using
      scanS_eq_take ws (sortByTs (collectFuture strict (hourStart now) (linesOf txt)))
        [] (by simp)
  refine ⟨hchar, ?_, ?_, ?_, ?_, ?_, ?_⟩
  · rw [hchar]; exact List.length_take_le 3 _
  · rw [hchar]
    exact List.Pairwise.sublist (List.take_sublist 3 _)
      (pairwise_sCandidates ws _ (pairwise_sortByTs _))
  · intro r hr
    rw [hchar] at hr
    have hr2 : r ∈ sCandidates ws (sortByTs (collectFuture strict (hourStart now) (linesOf txt))) :=
      List.take_subset 3 _ hr
    obtain ⟨e, he, hc⟩ := List.mem_filterMap.mp hr2
    obtain ⟨ni, hx, hS, rfl⟩ := sCandidate_eq_some hc
    exact ⟨e.2, ni, hx, hS, rfl⟩
  · intro hnil
    rw [hchar, hnil]
    rfl
  · intro ts nid rest acc hacc
    rw [scanS_cons]
    simp [hacc]
  · decide

/-- Witness for C5: a one-entry feed whose node does not resolve yields the
empty collection through the no-candidate hypothesis. -/
theorem future_scanner_spec_witness :
    futureScan true "7200,NodeQ" [] 0 = [] :=
  (future_scanner_spec true "7200,NodeQ" [] 0).2.2.2.2.1 (by decide)
